import Mathlib

/-!
Verification development for the stock-data HTTP service in `src/app.py`.

The embedding below translates the source functions into Lean:
  - `get_stock_symbols` (app.py lines 67-71): the batch partitioner;
  - `mround` / `calculate_and_save` (lines 24-63): the risk/reward calculator,
    modelled over the rationals with explicit half-to-even rounding (the
    idealisation of Python float rounding; no tie is hit at any input used
    in a theorem below);
  - `fetch_stock_data` (lines 75-129): the retrying fetcher, instrumented
    with attempt / sleep / calculator-call counters so that the control
    flow (retries, delays, the unreachable tail of the try block) is
    observable;
  - `get_stocks_data` (lines 190-217) and the batch bookkeeping of
    `get_all_stock_codes` (lines 148-155): the HTTP surface, with the
    provider passed in as a function argument.

The quote provider is modelled as a function from a symbol and a per-symbol
call counter to an outcome (an exception, or a payload).  The worker pool of
`get_stocks_data` only affects completion order, which the source never
exposes beyond list aggregation; the embedding fixes submission order and
all theorems about the dispatcher are stated at membership / set level.
-/

/-- Batch count target, constant `BATCH_COUNT_NUM = 100` of app.py line 14. -/
def BATCH_COUNT_NUM : Nat := 100

/-- Maximum provider attempts per fetch, constant `MAX_RETRIES = 3` (line 11). -/
def MAX_RETRIES : Nat := 3

/-- Slicing loop of app.py line 70:
`[symbols[i:i+bs] for i in range(0, len(symbols), bs)]`.
The comprehension takes successive slices of width `bs`; the equivalent
recursion takes `bs` elements and recurses on the rest.  For a non-empty
list `a :: l`, `(a :: l).drop bs = l.drop (bs - 1)` whenever `1 ≤ bs`, and
every call site passes `bs = max 1 _ ≥ 1` (Python would reject step 0). -/
def sliceChunksAux (bs : Nat) : Nat → List α → List (List α)
  | _, [] => []
  | 0, _ :: _ => []
  | fuel + 1, a :: l => (a :: l).take bs :: sliceChunksAux bs fuel (l.drop (bs - 1))

/-- The slicing loop, seeded with enough fuel (each step consumes at least
one element, so the length of the list suffices). -/
def sliceChunks (bs : Nat) (l : List α) : List (List α) :=
  sliceChunksAux bs l.length l

/-- `get_stock_symbols` (app.py lines 67-71), with the module-global symbol
list passed as the argument. -/
def get_stock_symbols (stock_symbols : List String) : List (List String) :=
  let batch_size := max 1 (stock_symbols.length / BATCH_COUNT_NUM)
  sliceChunks batch_size stock_symbols

/-- Trading capital, constant `CAPITAL = 100000` of app.py line 15. -/
def CAPITAL : ℚ := 100000

/-- Integer part of a rational, rounding toward negative infinity
(the floor used by half-to-even rounding below). -/
def ratFloor (q : ℚ) : ℤ := ⌊q⌋

/-- Round a rational to the nearest integer, ties to even: the semantics of
the one-argument Python `round`. -/
def pyroundInt (q : ℚ) : ℤ :=
  let f := ratFloor q
  let r := q - (f : ℚ)
  if r < 1 / 2 then f
  else if 1 / 2 < r then f + 1
  else if f % 2 = 0 then f else f + 1

/-- `round(x, 2)` of Python: round to two decimal places, ties to even. -/
def pyround2 (q : ℚ) : ℚ := (pyroundInt (q * 100) : ℚ) / 100

/-- `int(x)` of Python on a float value: truncation toward zero. -/
def pyint (q : ℚ) : ℤ := if q < 0 then -⌊-q⌋ else ⌊q⌋

/-- `mround` (app.py lines 24-25): `round(base * round(value / base), 2)`,
the snap-to-tick helper.  Every call site passes a non-zero base (0.05 or 1);
at base 0 Python would raise, while rational division yields 0. -/
def mround (value base : ℚ) : ℚ := pyround2 (base * (pyroundInt (value / base) : ℚ))

/-- Division as Python evaluates it: a zero divisor raises
(`ZeroDivisionError`), modelled as `none`. -/
def qdiv (a b : ℚ) : Option ℚ := if b = 0 then none else some (a / b)

/-- The guarded conditional expressions of app.py lines 47 and 49-50, of the
shape `f(num / den) if den != 0 else 0`: the division is evaluated only under
the guard, so the `none` branch of `qdiv` is unreachable. -/
def guardedDiv (num den : ℚ) (f : ℚ → ℚ) : Option ℚ :=
  if den ≠ 0 then (qdiv num den).map f else some 0

/-- Output record of `calculate_and_save` (app.py lines 52-63).  The last
three fields are the constant `None` placeholders of the source. -/
structure LevelSet where
  Buy_Entry : ℚ
  Sell_Entry : ℚ
  Buy_Stoploss : ℚ
  Sell_Stoploss : ℚ
  Buy_Stopgain : ℚ
  Sell_Stopgain : ℚ
  Shares_count : ℤ
  Signal : Option Unit
  Current_price : Option Unit
  Signal_Flag : Option Unit
  deriving DecidableEq

/-- `calculate_and_save` (app.py lines 29-63) over the rationals.  The float
literals 0.01, 0.015, 0.55, 0.0135 and 0.05 appear as the exact rationals
they denote; a division that Python would abort on surfaces as `none`. -/
def calculate_and_save (open_price yesterday_high yesterday_low : ℚ) :
    Option LevelSet := do
  let risk_per_trade := CAPITAL * (1 / 100)
  let target_profit := CAPITAL * (15 / 1000)
  let range_value := yesterday_high - yesterday_low
  let buy_entry := mround (open_price + range_value * (55 / 100)) (5 / 100)
  let sell_entry := mround (open_price - range_value * (55 / 100)) (5 / 100)
  let buy_stoploss := mround (buy_entry - buy_entry * (135 / 10000)) (5 / 100)
  let sell_stoploss := mround (sell_entry + sell_entry * (135 / 10000)) (5 / 100)
  let risk_buy := buy_entry - buy_stoploss
  let _risk_sell := sell_stoploss - sell_entry
  let shares_num ← guardedDiv risk_per_trade risk_buy (fun x => mround x 1)
  let buy_stopgain ← guardedDiv target_profit shares_num
    (fun x => mround (buy_entry + x) (5 / 100))
  let sell_stopgain ← guardedDiv target_profit shares_num
    (fun x => mround (sell_entry - x) (5 / 100))
  some
    { Buy_Entry := pyround2 buy_entry
      Sell_Entry := pyround2 sell_entry
      Buy_Stoploss := pyround2 buy_stoploss
      Sell_Stoploss := pyround2 sell_stoploss
      Buy_Stopgain := pyround2 buy_stopgain
      Sell_Stopgain := pyround2 sell_stopgain
      Shares_count := pyint shares_num
      Signal := none
      Current_price := none
      Signal_Flag := none }

/-- Fixed inter-attempt delay, constant `RETRY_DELAY = 5` of app.py line 12.
The traces below count sleeps; total waiting time is the count times this. -/
def RETRY_DELAY : Nat := 5

/-- Worker pool bound, constant `MAX_WORKERS = 30` of app.py line 13.  The
bound only limits parallelism and is invisible in the aggregate results. -/
def MAX_WORKERS : Nat := 30

/-- One call to `nse.get_quote`: the provider either raises or returns a
payload.  The second argument of a provider function is the per-symbol call
counter, so a stateful provider can answer differently on later calls. -/
inductive ProviderCall (Q : Type) where
  | raises
  | returns (q : Q)
  deriving DecidableEq

variable {Q : Type}

/-- Outcome of the guarded call at app.py lines 79-81: `quote = nse.get_quote
(symbol)` followed by `if not quote: raise ValueError`.  A raising call and a
falsy payload (tested by `e`) both land in the same `except` handler, so both
are `none` here. -/
def providerOutcome (p : String → Nat → ProviderCall Q) (e : Q → Bool)
    (s : String) (attempt : Nat) : Option Q :=
  match p s attempt with
  | .raises => none
  | .returns q => if e q then none else some q

/-- The `obj` record built at app.py lines 82-85. -/
structure StockRecord (Q : Type) where
  STOCK_SYMBOL : String
  STOCK_DATA : Q
  deriving DecidableEq

/-- Execution trace of one `fetch_stock_data` call: the returned value, the
number of provider attempts made, the number of `time.sleep` calls, and the
number of `calculate_and_save` invocations (the call at line 120 sits after
the `return` at line 86, so no executed path ever reaches it). -/
structure FetchTrace (Q : Type) where
  result : Option (StockRecord Q)
  attempts : Nat
  delays : Nat
  calcCalls : Nat
  deriving DecidableEq

/-- The retry loop of `fetch_stock_data` (app.py lines 77-129), from attempt
number `attempt` with `fuel` attempts remaining (the loop runs attempts
1 to `MAX_RETRIES`, so `fuel = MAX_RETRIES - attempt + 1`): on success the
function returns `obj` at once; on failure it sleeps and retries while
`attempt < MAX_RETRIES` (equivalently while `fuel ≠ 0` after this attempt)
and otherwise returns `None`. -/
def fetchAux (p : String → Nat → ProviderCall Q) (e : Q → Bool) (s : String) :
    Nat → Nat → FetchTrace Q
  | _, 0 => ⟨none, 0, 0, 0⟩
  | attempt, fuel + 1 =>
    match providerOutcome p e s attempt with
    | some q => ⟨some ⟨s, q⟩, 1, 0, 0⟩
    | none =>
      if fuel = 0 then ⟨none, 1, 0, 0⟩
      else
        let t := fetchAux p e s (attempt + 1) fuel
        ⟨t.result, t.attempts + 1, t.delays + 1, t.calcCalls⟩

/-- A full `fetch_stock_data` run starting at attempt `start` (the service
always starts at 1; the spec-modelled second dispatch round would hand the
provider a fresh call with the per-symbol counter already at 3). -/
def fetchRun (p : String → Nat → ProviderCall Q) (e : Q → Bool) (s : String)
    (start : Nat) : FetchTrace Q :=
  fetchAux p e s start MAX_RETRIES

/-- `fetch_stock_data` (app.py lines 75-129): the value returned to the
dispatcher. -/
def fetch_stock_data (p : String → Nat → ProviderCall Q) (e : Q → Bool)
    (s : String) : Option (StockRecord Q) :=
  (fetchRun p e s 1).result

/-- The per-symbol fetch traces of one `get_stocks_data` dispatch (app.py
lines 204-209).  The executor completes futures in a nondeterministic order;
the embedding collects them in submission order, and every theorem about the
dispatcher is order-insensitive. -/
def dispatchTraces (p : String → Nat → ProviderCall Q) (e : Q → Bool)
    (symbols : List String) : List (FetchTrace Q) :=
  symbols.map (fun s => fetchRun p e s 1)

/-- The `all_stock_data` list of app.py lines 203-209: successful results
only, failures silently dropped. -/
def dispatchStocks (p : String → Nat → ProviderCall Q) (e : Q → Bool)
    (symbols : List String) : List (StockRecord Q) :=
  (dispatchTraces p e symbols).filterMap FetchTrace.result

/-- The two 400-error bodies of `get_stocks_data` (app.py lines 195 and 199).
The second carries the upper bound `len(main_lst)` interpolated into the
message text. -/
inductive ErrorMsg where
  | missingBatchNum
  | outOfRange (maxBatch : Nat)
  deriving DecidableEq

/-- A value of the success JSON body (app.py lines 211-214): the wall-clock
timestamp string (its contents are real time, not modelled) or the stocks
list. -/
inductive JVal (Q : Type) where
  | tsVal
  | stocksVal (l : List (StockRecord Q))
  deriving DecidableEq

/-- The success JSON body of app.py lines 211-214, as an ordered list of
key/value fields: exactly a timestamp and the stocks list. -/
def okBody (stocks : List (StockRecord Q)) : List (String × JVal Q) :=
  [("timestamp", JVal.tsVal), ("stocks", JVal.stocksVal stocks)]

/-- An HTTP response of the `/get_stocks_data` route: an error status with a
message, or a 200 with a JSON body. -/
inductive HttpResponse (Q : Type) where
  | error (status : Nat) (msg : ErrorMsg)
  | json (body : List (String × JVal Q))
  deriving DecidableEq

/-- `get_stocks_data` (app.py lines 190-217), with the module globals passed
as arguments: the provider pair `(p, e)`, the symbol universe, and the parsed
`batch_num` query parameter (`none` when absent or non-integer).  The range
check makes the index into `main_lst` safe, so the `except` branch at lines
216-217 is unreachable. -/
def get_stocks_data (p : String → Nat → ProviderCall Q) (e : Q → Bool)
    (stock_symbols : List String) (batch_param : Option Int) : HttpResponse Q :=
  match batch_param with
  | none => .error 400 .missingBatchNum
  | some batch_param =>
    let main_lst := get_stock_symbols stock_symbols
    if batch_param < 1 ∨ (main_lst.length : Int) < batch_param then
      .error 400 (.outOfRange main_lst.length)
    else
      let selected_symbols := (main_lst[(batch_param - 1).toNat]?).getD []
      .json (okBody (dispatchStocks p e selected_symbols))

/-- All symbols occurring anywhere in a response body: the stocks list is the
only symbol-bearing field of the success JSON. -/
def responseSymbols : HttpResponse Q → List String
  | .error _ _ => []
  | .json body =>
      body.flatMap (fun kv =>
        match kv.2 with
        | .tsVal => []
        | .stocksVal l => l.map StockRecord.STOCK_SYMBOL)

/-- `batch_size` as computed by `get_all_stock_codes` (app.py line 148):
`math.ceil(len(stock_symbols) / BATCH_COUNT_NUM)`, as a function of the
symbol count.  At `n = 0` Python would raise on the next line; the route
wraps everything in a 500 handler. -/
def reported_batch_size (n : Nat) : Nat :=
  (n + BATCH_COUNT_NUM - 1) / BATCH_COUNT_NUM

/-- `batch_count` as reported by `get_all_stock_codes` (app.py line 154):
`math.ceil(len(stock_symbols) / batch_size)`. -/
def reported_batch_count (n : Nat) : Nat :=
  (n + reported_batch_size n - 1) / reported_batch_size n

/-- Modelled from the spec: the Batch Dispatcher of spec section 4.2 with its
second pass, which is missing from `src/app.py` — the source performs a
single round.  After one concurrent round, if the residual set is non-empty,
exactly one additional round runs over it (the provider, modelled with a
per-symbol call counter, has already been called `MAX_RETRIES` times for each
residual symbol), merging new successes and recomputing the residual. -/
def spec_dispatch (p : String → Nat → ProviderCall Q) (e : Q → Bool)
    (symbols : List String) : List (StockRecord Q) × List String :=
  let fetched₁ := symbols.filterMap (fun s => (fetchRun p e s 1).result)
  let residual₁ := symbols.filter (fun s => ((fetchRun p e s 1).result).isNone)
  if residual₁.isEmpty then (fetched₁, residual₁)
  else
    let fetched₂ :=
      residual₁.filterMap (fun s => (fetchRun p e s (MAX_RETRIES + 1)).result)
    let residual₂ :=
      residual₁.filter (fun s => ((fetchRun p e s (MAX_RETRIES + 1)).result).isNone)
    (fetched₁ ++ fetched₂, residual₂)

/-- A provider that raises on every call. -/
def alwaysFail : String → Nat → ProviderCall Nat := fun _ _ => .raises

/-- A provider that answers every call with the payload 7. -/
def alwaysQuote7 : String → Nat → ProviderCall Nat := fun _ _ => .returns 7

/-- A stateful provider that raises on the first three calls for a symbol and
succeeds from the fourth call on: it defeats the in-fetch retry loop but
would be rescued by a second dispatch round. -/
def lateProvider : String → Nat → ProviderCall Nat :=
  fun _ k => if 4 ≤ k then .returns 0 else .raises

/-- A provider that succeeds only for the symbol `A`. -/
def onlyA : String → Nat → ProviderCall Nat :=
  fun s _ => if s = "A" then .returns 7 else .raises

/-- Payload emptiness test under which no payload is falsy. -/
def neverEmpty : Nat → Bool := fun _ => false

/-- Closed form of `calculate_and_save` once both division guards are seen to
protect their divisions: the record it always succeeds with. -/
def calcRecord (open_price yesterday_high yesterday_low : ℚ) : LevelSet :=
  let risk_per_trade := CAPITAL * (1 / 100)
  let target_profit := CAPITAL * (15 / 1000)
  let range_value := yesterday_high - yesterday_low
  let buy_entry := mround (open_price + range_value * (55 / 100)) (5 / 100)
  let sell_entry := mround (open_price - range_value * (55 / 100)) (5 / 100)
  let buy_stoploss := mround (buy_entry - buy_entry * (135 / 10000)) (5 / 100)
  let sell_stoploss := mround (sell_entry + sell_entry * (135 / 10000)) (5 / 100)
  let risk_buy := buy_entry - buy_stoploss
  let shares_num := if risk_buy ≠ 0 then mround (risk_per_trade / risk_buy) 1 else 0
  let buy_stopgain :=
    if shares_num ≠ 0 then mround (buy_entry + target_profit / shares_num) (5 / 100)
    else 0
  let sell_stopgain :=
    if shares_num ≠ 0 then mround (sell_entry - target_profit / shares_num) (5 / 100)
    else 0
  { Buy_Entry := pyround2 buy_entry
    Sell_Entry := pyround2 sell_entry
    Buy_Stoploss := pyround2 buy_stoploss
    Sell_Stoploss := pyround2 sell_stoploss
    Buy_Stopgain := pyround2 buy_stopgain
    Sell_Stopgain := pyround2 sell_stopgain
    Shares_count := pyint shares_num
    Signal := none
    Current_price := none
    Signal_Flag := none }

/-- The value of `shares_num` (app.py line 47) on a zero-range day, as a
function of the opening price alone: with `range_value = 0` the entry is
`mround(open, 0.05)`, the stoploss its snapped 1.35-percent markdown, and the
share count is the snapped guarded division — 0 when the guard trips. -/
def zeroRangeShares (o : ℚ) : ℚ :=
  let buy_entry := mround o (5 / 100)
  let buy_stoploss := mround (buy_entry - buy_entry * (135 / 10000)) (5 / 100)
  let risk_buy := buy_entry - buy_stoploss
  if risk_buy ≠ 0 then mround (CAPITAL * (1 / 100) / risk_buy) 1 else 0

theorem sliceChunksAux_congr {α : Type} (bs : Nat) :
    ∀ (fuel₁ fuel₂ : Nat) (l : List α), l.length ≤ fuel₁ → l.length ≤ fuel₂ →
      sliceChunksAux bs fuel₁ l = sliceChunksAux bs fuel₂ l := by
  intro fuel₁
  induction fuel₁ with
  | zero =>
    intro fuel₂ l h1 h2
    cases l with
    | nil => cases fuel₂ <;> rfl
    | cons a t => simp at h1
  | succ n ihn =>
    intro fuel₂ l h1 h2
    cases l with
    | nil => cases fuel₂ <;> rfl
    | cons a t =>
      cases fuel₂ with
      | zero => simp at h2
      | succ m =>
        simp only [sliceChunksAux]
        rw [ihn m (t.drop (bs - 1)) (by simp at h1 ⊢; omega) (by simp at h2 ⊢; omega)]

theorem sliceChunks_cons {α : Type} (bs : Nat) (a : α) (l : List α) :
    sliceChunks bs (a :: l) = (a :: l).take bs :: sliceChunks bs (l.drop (bs - 1)) := by
  show sliceChunksAux bs (a :: l).length (a :: l) = _
  simp only [List.length_cons, sliceChunksAux, sliceChunks]
  rw [sliceChunksAux_congr bs l.length (l.drop (bs - 1)).length (l.drop (bs - 1))
        (by simp) le_rfl]

theorem sliceChunks_ind {α : Type} (bs : Nat) (motive : List α → Prop)
    (h0 : motive [])
    (hstep : ∀ (a : α) (l : List α), motive (l.drop (bs - 1)) → motive (a :: l)) :
    ∀ l, motive l := by
  have key : ∀ (n : Nat) (l : List α), l.length ≤ n → motive l := by
    intro n
    induction n with
    | zero =>
      intro l hl
      cases l with
      | nil => exact h0
      | cons a t => simp at hl
    | succ n ihn =>
      intro l hl
      cases l with
      | nil => exact h0
      | cons a t =>
        refine hstep a t (ihn _ ?_)
        simp at hl ⊢
        omega
  exact fun l => key l.length l le_rfl

theorem sliceChunks_join {α : Type} (bs : Nat) (hbs : 1 ≤ bs) (l : List α) :
    (sliceChunks bs l).flatten = l := by
  refine sliceChunks_ind bs (fun l => (sliceChunks bs l).flatten = l) ?_ ?_ l
  · rfl
  · intro a l ih
    rw [sliceChunks_cons, List.flatten_cons, ih]
    obtain ⟨k, rfl⟩ := Nat.exists_eq_add_of_le hbs
    have h1 : 1 + k - 1 = k := by omega
    have h2 : (a :: l).take (1 + k) = a :: l.take k := by
      rw [Nat.add_comm]
      rfl
    rw [h1, h2, List.cons_append, List.take_append_drop]

theorem sliceChunks_mem_length {α : Type} (bs : Nat) (hbs : 1 ≤ bs) (l : List α) :
    ∀ c ∈ sliceChunks bs l, 0 < c.length ∧ c.length ≤ bs := by
  refine sliceChunks_ind bs
    (fun l => ∀ c ∈ sliceChunks bs l, 0 < c.length ∧ c.length ≤ bs) ?_ ?_ l
  · simp [sliceChunks, sliceChunksAux]
  · intro a l ih
    intro c hc
    rw [sliceChunks_cons] at hc
    simp only [List.mem_cons] at hc
    rcases hc with hc | hc
    · subst hc
      constructor
      · simp only [List.length_take, List.length_cons]
        omega
      · exact List.length_take_le bs (a :: l)
    · exact ih c hc

theorem sliceChunks_dropLast_length {α : Type} (bs : Nat) (hbs : 1 ≤ bs) (l : List α) :
    ∀ c ∈ (sliceChunks bs l).dropLast, c.length = bs := by
  refine sliceChunks_ind bs
    (fun l => ∀ c ∈ (sliceChunks bs l).dropLast, c.length = bs) ?_ ?_ l
  · simp [sliceChunks, sliceChunksAux]
  · intro a l ih
    intro c hc
    cases hrest : sliceChunks bs (l.drop (bs - 1)) with
    | nil =>
      rw [sliceChunks_cons, hrest] at hc
      simp at hc
    | cons x xs =>
      have hdl : (sliceChunks bs (a :: l)).dropLast
          = (a :: l).take bs :: (x :: xs).dropLast := by
        rw [sliceChunks_cons, hrest]
        rfl
      rw [hdl, List.mem_cons] at hc
      rcases hc with hc | hc
      · -- the remainder is non-empty, so this slice is a full one
        have hne : l.drop (bs - 1) ≠ [] := by
          intro h
          rw [h] at hrest
          simp [sliceChunks, sliceChunksAux] at hrest
        have hlen : bs - 1 < l.length := by
          by_contra hle
          exact hne (List.drop_eq_nil_of_le (Nat.le_of_not_lt hle))
        subst hc
        simp only [List.length_take, List.length_cons]
        omega
      · exact ih c (hrest ▸ hc)

theorem sliceChunks_length {α : Type} (bs : Nat) (hbs : 1 ≤ bs) (l : List α) :
    (sliceChunks bs l).length = (l.length + bs - 1) / bs := by
  refine sliceChunks_ind bs
    (fun l => (sliceChunks bs l).length = (l.length + bs - 1) / bs) ?_ ?_ l
  · simp only [sliceChunks, sliceChunksAux, List.length_nil, Nat.zero_add]
    rw [Nat.div_eq_of_lt (by omega)]
  · intro a l ih
    rw [sliceChunks_cons]
    simp only [List.length_cons, ih, List.length_drop]
    have hR : l.length + 1 + bs - 1 = l.length + bs := by omega
    rw [hR, Nat.add_div_right _ (by omega)]
    rcases le_or_lt (bs - 1) l.length with hle | hlt
    · have h1 : l.length - (bs - 1) + bs - 1 = l.length := by omega
      rw [h1]
    · have h1 : l.length - (bs - 1) + bs - 1 = bs - 1 := by omega
      rw [h1, Nat.div_eq_of_lt (by omega), Nat.div_eq_of_lt (by omega)]

theorem guardedDiv_eq (num den : ℚ) (f : ℚ → ℚ) :
    guardedDiv num den f = some (if den ≠ 0 then f (num / den) else 0) := by
  by_cases h : den = 0 <;> simp [guardedDiv, qdiv, h]

theorem fetchAux_attempts_le (p : String → Nat → ProviderCall Q) (e : Q → Bool)
    (s : String) : ∀ (fuel attempt : Nat), (fetchAux p e s attempt fuel).attempts ≤ fuel := by
  intro fuel
  induction fuel with
  | zero => intro attempt; simp [fetchAux]
  | succ n ihn =>
    intro attempt
    cases hpo : providerOutcome p e s attempt with
    | some q => simp [fetchAux, hpo]
    | none =>
      by_cases hn : n = 0
      · simp [fetchAux, hpo, hn]
      · simp only [fetchAux, hpo]
        rw [if_neg hn]
        have := ihn (attempt + 1)
        simp only []
        omega

theorem fetchAux_result_symbol (p : String → Nat → ProviderCall Q) (e : Q → Bool)
    (s : String) : ∀ (fuel attempt : Nat) (r : StockRecord Q),
      (fetchAux p e s attempt fuel).result = some r → r.STOCK_SYMBOL = s := by
  intro fuel
  induction fuel with
  | zero => intro attempt r h; simp [fetchAux] at h
  | succ n ihn =>
    intro attempt r h
    cases hpo : providerOutcome p e s attempt with
    | some q =>
      simp [fetchAux, hpo] at h
      rw [← h]
    | none =>
      by_cases hn : n = 0
      · simp [fetchAux, hpo, hn] at h
      · simp only [fetchAux, hpo] at h
        rw [if_neg hn] at h
        exact ihn (attempt + 1) r h

theorem fetchAux_all_fail (p : String → Nat → ProviderCall Q) (e : Q → Bool)
    (s : String) : ∀ (fuel attempt : Nat), 1 ≤ fuel →
      (∀ a, attempt ≤ a → a < attempt + fuel → providerOutcome p e s a = none) →
      fetchAux p e s attempt fuel = ⟨none, fuel, fuel - 1, 0⟩ := by
  intro fuel
  induction fuel with
  | zero => intro attempt h; omega
  | succ n ihn =>
    intro attempt hf hfails
    have hpo := hfails attempt le_rfl (by omega)
    by_cases hn : n = 0
    · subst hn
      simp [fetchAux, hpo]
    · simp only [fetchAux, hpo]
      rw [if_neg hn]
      rw [ihn (attempt + 1) (by omega)
            (fun a ha1 ha2 => hfails a (by omega) (by omega))]
      simp only [FetchTrace.mk.injEq, true_and, and_true]
      omega

theorem fetchAux_first_success (p : String → Nat → ProviderCall Q) (e : Q → Bool)
    (s : String) (q : Q) : ∀ (fuel attempt k : Nat), k < fuel →
      (∀ b, attempt ≤ b → b < attempt + k → providerOutcome p e s b = none) →
      providerOutcome p e s (attempt + k) = some q →
      fetchAux p e s attempt fuel = ⟨some ⟨s, q⟩, k + 1, k, 0⟩ := by
  intro fuel
  induction fuel with
  | zero => intro attempt k hk; omega
  | succ n ihn =>
    intro attempt k hk hfails hsucc
    cases k with
    | zero =>
      have hpo : providerOutcome p e s attempt = some q := by simpa using hsucc
      simp [fetchAux, hpo]
    | succ m =>
      have hpo := hfails attempt le_rfl (by omega)
      have hn : n ≠ 0 := by omega
      simp only [fetchAux, hpo]
      rw [if_neg hn]
      have hs2 : providerOutcome p e s (attempt + 1 + m) = some q := by
        rw [show attempt + 1 + m = attempt + (m + 1) by omega]
        exact hsucc
      rw [ihn (attempt + 1) m (by omega)
            (fun b hb1 hb2 => hfails b (by omega) (by omega)) hs2]

theorem dispatchStocks_eq (p : String → Nat → ProviderCall Q) (e : Q → Bool)
    (syms : List String) :
    dispatchStocks p e syms = syms.filterMap (fun s => fetch_stock_data p e s) := by
  simp only [dispatchStocks, dispatchTraces, List.filterMap_map]
  rfl

theorem fetch_symbol_eq (p : String → Nat → ProviderCall Q) (e : Q → Bool)
    (s : String) (r : StockRecord Q) (h : fetch_stock_data p e s = some r) :
    r.STOCK_SYMBOL = s :=
  fetchAux_result_symbol p e s MAX_RETRIES 1 r h

theorem mem_dispatch_symbol_iff (p : String → Nat → ProviderCall Q) (e : Q → Bool)
    (syms : List String) (s : String) :
    s ∈ (dispatchStocks p e syms).map StockRecord.STOCK_SYMBOL
      ↔ s ∈ syms ∧ (fetch_stock_data p e s).isSome := by
  rw [dispatchStocks_eq]
  constructor
  · intro h
    rcases List.mem_map.mp h with ⟨r, hr, hsym⟩
    rcases List.mem_filterMap.mp hr with ⟨x, hx, hfx⟩
    have hxs : r.STOCK_SYMBOL = x := fetch_symbol_eq p e x r hfx
    have hxeq : x = s := by rw [← hxs, hsym]
    subst hxeq
    exact ⟨hx, by simp [hfx]⟩
  · rintro ⟨hs, hsome⟩
    rcases Option.isSome_iff_exists.mp hsome with ⟨r, hr⟩
    exact List.mem_map.mpr
      ⟨r, List.mem_filterMap.mpr ⟨s, hs, hr⟩, fetch_symbol_eq p e s r hr⟩

theorem calculate_and_save_eq (o yh yl : ℚ) :
    calculate_and_save o yh yl = some (calcRecord o yh yl) := by
  simp only [calculate_and_save, calcRecord, guardedDiv_eq, Option.some_bind,
    Option.bind_eq_bind]

/-- C4: when the provider fails (raises or returns an empty payload) on every
attempt, `fetch_stock_data` makes exactly 3 provider attempts, sleeps exactly
twice (after each failed attempt except the last), invokes the calculator
never, and returns `None` instead of raising: the `except` handler at app.py
lines 124-129 absorbs every failure, so the function is total. -/
theorem fetch_stock_data_exhausts_three_attempts (p : String → Nat → ProviderCall Q)
    (e : Q → Bool) (s : String)
    (hfail : ∀ a, 1 ≤ a → a ≤ MAX_RETRIES → providerOutcome p e s a = none) :
    fetchRun p e s 1 = ⟨none, 3, 2, 0⟩ := by
  have h := fetchAux_all_fail p e s MAX_RETRIES 1 (by decide)
    (fun a ha1 ha2 => hfail a ha1 (by simp [MAX_RETRIES] at ha2 ⊢; omega))
  simpa [fetchRun, MAX_RETRIES] using h

/-- Witness for C4 at the provider that raises on every call. -/
theorem fetch_stock_data_exhausts_three_attempts_witness :
    fetchRun alwaysFail neverEmpty "X" 1 = ⟨none, 3, 2, 0⟩ :=
  fetch_stock_data_exhausts_three_attempts alwaysFail neverEmpty "X"
    (fun _ _ _ => rfl)

/-- C9: on the first successful attempt `a` (at most 3), `fetch_stock_data`
returns exactly the record `{STOCK_SYMBOL, STOCK_DATA}` with the raw provider
payload, having slept `a - 1` times; the trace records zero invocations of
`calculate_and_save`, because the field-extraction block at app.py lines
89-122 (including the calculator call at line 120) sits after the
unconditional `return obj` at line 86 and is therefore unreachable on every
execution path of the service. -/
theorem fetch_returns_raw_quote_calculator_unreachable
    (p : String → Nat → ProviderCall Q) (e : Q → Bool) (s : String)
    (a : Nat) (q : Q) (h1 : 1 ≤ a) (h2 : a ≤ MAX_RETRIES)
    (hsucc : providerOutcome p e s a = some q)
    (hfail : ∀ b, 1 ≤ b → b < a → providerOutcome p e s b = none) :
    fetchRun p e s 1 = ⟨some ⟨s, q⟩, a, a - 1, 0⟩ := by
  have hs : providerOutcome p e s (1 + (a - 1)) = some q := by
    rw [show 1 + (a - 1) = a by omega]
    exact hsucc
  have h := fetchAux_first_success p e s q MAX_RETRIES 1 (a - 1)
    (by simp [MAX_RETRIES] at h2 ⊢; omega)
    (fun b hb1 hb2 => hfail b hb1 (by omega)) hs
  rw [fetchRun, h]
  simp only [FetchTrace.mk.injEq, true_and, and_true]
  omega

/-- Witness for C9 at a provider succeeding on the first call. -/
theorem fetch_returns_raw_quote_calculator_unreachable_witness :
    fetchRun alwaysQuote7 neverEmpty "X" 1 = ⟨some ⟨"X", 7⟩, 1, 0, 0⟩ :=
  fetch_returns_raw_quote_calculator_unreachable alwaysQuote7 neverEmpty "X" 1 7
    (by decide) (by decide) rfl (fun b hb1 hb2 => by omega)

/-- C7: for every symbol list and batch count target, the partition loop with
batch size `max 1 (len / target)` produces contiguous non-overlapping slices
whose concatenation is the original list in order (every symbol exactly
once), every slice is non-empty and at most the batch size, every slice but
possibly the last is full, and `get_stock_symbols` is this partition at
target `BATCH_COUNT_NUM`. -/
theorem partition_slices_cover_in_order (l : List String) (t : Nat) :
    (sliceChunks (max 1 (l.length / t)) l).flatten = l
    ∧ (∀ c ∈ (sliceChunks (max 1 (l.length / t)) l).dropLast,
        c.length = max 1 (l.length / t))
    ∧ (∀ c ∈ sliceChunks (max 1 (l.length / t)) l,
        0 < c.length ∧ c.length ≤ max 1 (l.length / t))
    ∧ get_stock_symbols l = sliceChunks (max 1 (l.length / BATCH_COUNT_NUM)) l := by
  have hbs : 1 ≤ max 1 (l.length / t) := le_max_left _ _
  exact ⟨sliceChunks_join _ hbs l, sliceChunks_dropLast_length _ hbs l,
    sliceChunks_mem_length _ hbs l, rfl⟩

/-- Witness for C7 on a three-element list with target 2 (batch size 1). -/
theorem partition_slices_cover_in_order_witness :
    (sliceChunks 1 ["a", "b", "c"]).flatten = ["a", "b", "c"]
    ∧ (["a"] : List String).length = 1
    ∧ (0 < (["c"] : List String).length ∧ (["c"] : List String).length ≤ 1) := by
  have h := partition_slices_cover_in_order ["a", "b", "c"] 2
  exact ⟨h.1, h.2.1 ["a"] (by decide), h.2.2.1 ["c"] (by decide)⟩

/-- C8: `/get_stocks_data` with no `batch_num` answers HTTP 400 with the
missing-parameter error body, and with a `batch_num` below 1 or above the
number of batches answers HTTP 400 with the error message carrying the valid
range upper bound `len(main_lst)` (the lower bound 1 is literal in the
message text). -/
theorem get_stocks_data_batch_num_validation (p : String → Nat → ProviderCall Q)
    (e : Q → Bool) (syms : List String) (bp : Int) :
    get_stocks_data p e syms none = .error 400 .missingBatchNum
    ∧ (bp < 1 ∨ ((get_stock_symbols syms).length : Int) < bp →
        get_stocks_data p e syms (some bp)
          = .error 400 (.outOfRange (get_stock_symbols syms).length)) := by
  constructor
  · rfl
  · intro h
    simp only [get_stocks_data]
    rw [if_pos h]

/-- Witness for C8: missing parameter, and parameter 5 against one batch. -/
theorem get_stocks_data_batch_num_validation_witness :
    get_stocks_data alwaysQuote7 neverEmpty ["A"] none
      = .error 400 .missingBatchNum
    ∧ get_stocks_data alwaysQuote7 neverEmpty ["A"] (some 5)
      = .error 400 (.outOfRange 1) := by
  refine ⟨(get_stocks_data_batch_num_validation alwaysQuote7 neverEmpty ["A"] 5).1, ?_⟩
  exact (get_stocks_data_batch_num_validation alwaysQuote7 neverEmpty ["A"] 5).2
    (Or.inr (by decide))

/-- C1 (corrected): `get_stocks_data` performs no additional dispatch round.
Each symbol of the selected batch is handed to `fetch_stock_data` exactly
once (so at most `MAX_RETRIES` provider attempts per symbol), the stocks list
is the single-round collection of successes, and the route body for an
in-range `batch_num` is exactly that single dispatch — no residual set is
computed, let alone retried. -/
theorem get_stocks_data_single_dispatch_round (p : String → Nat → ProviderCall Q)
    (e : Q → Bool) (syms : List String) :
    (∀ t ∈ dispatchTraces p e syms, t.attempts ≤ MAX_RETRIES)
    ∧ dispatchStocks p e syms = syms.filterMap (fun s => fetch_stock_data p e s)
    ∧ ∀ bp : Int, 1 ≤ bp → bp ≤ ((get_stock_symbols syms).length : Int) →
        get_stocks_data p e syms (some bp)
          = .json (okBody (dispatchStocks p e
              (((get_stock_symbols syms)[(bp - 1).toNat]?).getD []))) := by
  refine ⟨?_, dispatchStocks_eq p e syms, ?_⟩
  · intro t ht
    simp only [dispatchTraces, List.mem_map] at ht
    rcases ht with ⟨s, hs, rfl⟩
    exact fetchAux_attempts_le p e s MAX_RETRIES 1
  · intro bp h1 h2
    simp only [get_stocks_data]
    rw [if_neg]
    rw [not_or]
    exact ⟨not_lt.mpr h1, not_lt.mpr h2⟩

/-- Witness for C1 on a one-symbol batch. -/
theorem get_stocks_data_single_dispatch_round_witness :
    (fetchRun alwaysQuote7 neverEmpty "A" 1).attempts ≤ MAX_RETRIES
    ∧ get_stocks_data alwaysQuote7 neverEmpty ["A"] (some 1)
        = .json (okBody (dispatchStocks alwaysQuote7 neverEmpty ["A"])) := by
  have h := get_stocks_data_single_dispatch_round alwaysQuote7 neverEmpty ["A"]
  exact ⟨h.1 _ (by decide), h.2.2 1 (by decide) (by decide)⟩

/-- Counterexample for C1: against a provider that fails the first three
calls for a symbol and succeeds from the fourth on, the route returns an
empty stocks list — whereas the one-extra-round dispatcher described by the
spec would have fetched the symbol in its second pass.  The code therefore
does not perform the claimed additional dispatch round. -/
theorem get_stocks_data_no_second_round_cex :
    get_stocks_data lateProvider neverEmpty ["A"] (some 1) = .json (okBody [])
    ∧ dispatchStocks lateProvider neverEmpty ["A"] = []
    ∧ (spec_dispatch lateProvider neverEmpty ["A"]).1 = [⟨"A", 0⟩]
    ∧ (spec_dispatch lateProvider neverEmpty ["A"]).2 = []
    ∧ ([] : List (StockRecord Nat)) ≠ [⟨"A", 0⟩] := by
  decide

/-- C2 (corrected): a symbol of the input ends in the fetched list exactly
when its single fetch succeeded, the fetched symbols all come from the input,
and the fetched list together with the recomputed set difference
`syms − fetched` (which the code does not return) partitions the input:
each input symbol lies in exactly one of the two. -/
theorem dispatch_fetched_partition (p : String → Nat → ProviderCall Q)
    (e : Q → Bool) (syms : List String) (s : String) (hs : s ∈ syms) :
    (s ∈ (dispatchStocks p e syms).map StockRecord.STOCK_SYMBOL
        ∨ s ∈ syms.filter (fun x => (fetch_stock_data p e x).isNone))
    ∧ ¬ (s ∈ (dispatchStocks p e syms).map StockRecord.STOCK_SYMBOL
        ∧ s ∈ syms.filter (fun x => (fetch_stock_data p e x).isNone))
    ∧ ∀ x ∈ (dispatchStocks p e syms).map StockRecord.STOCK_SYMBOL, x ∈ syms := by
  refine ⟨?_, ?_, ?_⟩
  · cases hfe : fetch_stock_data p e s with
    | none => exact Or.inr (List.mem_filter.mpr ⟨hs, by simp [hfe]⟩)
    | some r =>
      exact Or.inl ((mem_dispatch_symbol_iff p e syms s).mpr ⟨hs, by simp [hfe]⟩)
  · rintro ⟨h1, h2⟩
    have hsome := ((mem_dispatch_symbol_iff p e syms s).mp h1).2
    have hnone := (List.mem_filter.mp h2).2
    simp only [Option.isNone_iff_eq_none] at hnone
    rw [hnone] at hsome
    simp at hsome
  · intro x hx
    exact ((mem_dispatch_symbol_iff p e syms x).mp hx).1

/-- Witness for C2 at a provider succeeding only for `A`. -/
theorem dispatch_fetched_partition_witness :
    ("A" ∈ (dispatchStocks onlyA neverEmpty ["A", "B"]).map StockRecord.STOCK_SYMBOL
        ∨ "A" ∈ (["A", "B"] : List String).filter
            (fun x => (fetch_stock_data onlyA neverEmpty x).isNone))
    ∧ ¬ ("A" ∈ (dispatchStocks onlyA neverEmpty ["A", "B"]).map StockRecord.STOCK_SYMBOL
        ∧ "A" ∈ (["A", "B"] : List String).filter
            (fun x => (fetch_stock_data onlyA neverEmpty x).isNone))
    ∧ ∀ x ∈ (dispatchStocks onlyA neverEmpty ["A", "B"]).map StockRecord.STOCK_SYMBOL,
        x ∈ (["A", "B"] : List String) :=
  dispatch_fetched_partition onlyA neverEmpty ["A", "B"] "A" (by decide)

/-- Counterexample for C2 as stated: the outcome returned by the dispatch
carries no not-fetched component at all.  Against a provider succeeding only
for `A`, dispatching the batch that holds exactly `B` yields a response whose
body mentions no symbol whatsoever, so `B` ends in neither a fetched nor a
returned not-fetched set; at dispatch level the input `[A, B]` yields only
the fetched list `[A]`. -/
theorem dispatch_outcome_missing_not_fetched_cex :
    dispatchStocks onlyA neverEmpty ["A", "B"] = [⟨"A", 7⟩]
    ∧ get_stocks_data onlyA neverEmpty ["A", "B"] (some 2) = .json (okBody [])
    ∧ responseSymbols (get_stocks_data onlyA neverEmpty ["A", "B"] (some 2)) = []
    ∧ "B" ∉ responseSymbols (get_stocks_data onlyA neverEmpty ["A", "B"] (some 2)) := by
  decide

/-- C3 (corrected): the successful JSON response of `/get_stocks_data` for an
in-range `batch_num` has exactly the fields `timestamp` and `stocks`; in
particular it carries no `not_fetched_lst` field. -/
theorem response_fields_timestamp_stocks (p : String → Nat → ProviderCall Q)
    (e : Q → Bool) (syms : List String) (bp : Int)
    (h1 : 1 ≤ bp) (h2 : bp ≤ ((get_stock_symbols syms).length : Int)) :
    ∃ stocks : List (StockRecord Q),
      get_stocks_data p e syms (some bp) = .json (okBody stocks)
      ∧ (okBody stocks).map Prod.fst = ["timestamp", "stocks"]
      ∧ "not_fetched_lst" ∉ (okBody stocks).map Prod.fst := by
  refine ⟨dispatchStocks p e (((get_stock_symbols syms)[(bp - 1).toNat]?).getD []),
    ?_, rfl, by simp [okBody]⟩
  simp only [get_stocks_data]
  rw [if_neg]
  rw [not_or]
  exact ⟨not_lt.mpr h1, not_lt.mpr h2⟩

/-- Witness for C3 on a one-symbol universe, batch 1. -/
theorem response_fields_timestamp_stocks_witness :
    ∃ stocks : List (StockRecord Nat),
      get_stocks_data alwaysQuote7 neverEmpty ["A"] (some 1) = .json (okBody stocks)
      ∧ (okBody stocks).map Prod.fst = ["timestamp", "stocks"]
      ∧ "not_fetched_lst" ∉ (okBody stocks).map Prod.fst :=
  response_fields_timestamp_stocks alwaysQuote7 neverEmpty ["A"] 1
    (by decide) (by decide)

/-- Counterexample for C3 as stated: a concrete successful response whose
field list is exactly `timestamp, stocks` — no `not_fetched_lst`. -/
theorem response_no_not_fetched_lst_cex :
    get_stocks_data alwaysQuote7 neverEmpty ["A"] (some 1)
      = .json (okBody [⟨"A", 7⟩])
    ∧ (okBody [(⟨"A", 7⟩ : StockRecord Nat)]).map Prod.fst
      = ["timestamp", "stocks"]
    ∧ "not_fetched_lst" ∉ (okBody [(⟨"A", 7⟩ : StockRecord Nat)]).map Prod.fst := by
  decide

theorem calcRecord_zero_range_entries (o y : ℚ) :
    (calcRecord o y y).Buy_Entry = pyround2 (mround o (5 / 100))
    ∧ (calcRecord o y y).Sell_Entry = pyround2 (mround o (5 / 100)) := by
  constructor <;> simp [calcRecord]

theorem calcRecord_zero_range_shares (o y : ℚ) :
    (calcRecord o y y).Shares_count = pyint (zeroRangeShares o) := by
  simp [calcRecord, zeroRangeShares]

theorem calcRecord_zero_range_gains (o y : ℚ) (hz : zeroRangeShares o = 0) :
    (calcRecord o y y).Buy_Stopgain = 0 ∧ (calcRecord o y y).Sell_Stopgain = 0 := by
  have hpr : pyround2 0 = 0 := by
    norm_num [pyround2, pyroundInt, ratFloor]
  have hz' := hz
  simp only [zeroRangeShares] at hz'
  constructor <;>
  · simp only [calcRecord, sub_self, zero_mul, add_zero, sub_zero]
    rw [hz']
    simp [hpr]

/-- C5 (corrected): on a zero-range day the calculator never raises — its two
divisions are evaluated only under non-zero guards, so the result exists for
all inputs.  Buy and sell entries are both `round(mround(open, 0.05), 2)`,
the opening price snapped to the 0.05 tick (not the opening price itself).
The share count is `int(shares_num)` where `shares_num` is the snapped
guarded division `zeroRangeShares open`; whenever that value is 0, the share
count and both stopgains are 0, and it is 0 in particular when the rounded
stoploss equals the entry — a sufficient condition, not a necessary one
(the rounded division can vanish with a distinct stoploss). -/
theorem calculate_zero_range_behavior (o yh yl y : ℚ) :
    (calculate_and_save o yh yl).isSome = true
    ∧ (calculate_and_save o y y).map LevelSet.Buy_Entry
        = some (pyround2 (mround o (5 / 100)))
    ∧ (calculate_and_save o y y).map LevelSet.Sell_Entry
        = some (pyround2 (mround o (5 / 100)))
    ∧ (calculate_and_save o y y).map LevelSet.Shares_count
        = some (pyint (zeroRangeShares o))
    ∧ (zeroRangeShares o = 0 →
        (calculate_and_save o y y).map LevelSet.Shares_count = some 0
        ∧ (calculate_and_save o y y).map LevelSet.Buy_Stopgain = some 0
        ∧ (calculate_and_save o y y).map LevelSet.Sell_Stopgain = some 0)
    ∧ (mround o (5 / 100)
          = mround (mround o (5 / 100) - mround o (5 / 100) * (135 / 10000)) (5 / 100) →
        zeroRangeShares o = 0) := by
  have hpi : pyint 0 = 0 := by norm_num [pyint]
  refine ⟨?_, ?_, ?_, ?_, ?_, ?_⟩
  · rw [calculate_and_save_eq]
    rfl
  · rw [calculate_and_save_eq]
    simp only [Option.map_some']
    exact congrArg some (calcRecord_zero_range_entries o y).1
  · rw [calculate_and_save_eq]
    simp only [Option.map_some']
    exact congrArg some (calcRecord_zero_range_entries o y).2
  · rw [calculate_and_save_eq]
    simp only [Option.map_some']
    exact congrArg some (calcRecord_zero_range_shares o y)
  · intro hz
    rw [calculate_and_save_eq]
    simp only [Option.map_some']
    have hg := calcRecord_zero_range_gains o y hz
    exact ⟨congrArg some ((calcRecord_zero_range_shares o y).trans (by rw [hz]; exact hpi)),
      congrArg some hg.1, congrArg some hg.2⟩
  · intro h
    have hRB : mround o (5 / 100)
        - mround (mround o (5 / 100) - mround o (5 / 100) * (135 / 10000)) (5 / 100)
        = 0 := sub_eq_zero_of_eq h
    simp [zeroRangeShares, hRB]

/-- Witness for C5: totality at (1, 2, 3); the zero-range entry value and the
degenerate case at opening price 1, where entry and stoploss round to the
same tick; and the zero-share case at opening price 150000, where the
stoploss (147975) differs from the entry yet the snapped share count
round(1000 / 2025) is 0, so both stopgains are 0 as well. -/
theorem calculate_zero_range_behavior_witness :
    (calculate_and_save 1 2 3).isSome = true
    ∧ (calculate_and_save 1 5 5).map LevelSet.Buy_Entry = some 1
    ∧ (calculate_and_save 1 5 5).map LevelSet.Shares_count = some 0
    ∧ (calculate_and_save 1 5 5).map LevelSet.Buy_Stopgain = some 0
    ∧ (calculate_and_save 150000 5 5).map LevelSet.Shares_count = some 0
    ∧ (calculate_and_save 150000 5 5).map LevelSet.Sell_Stopgain = some 0 := by
  have h1 := calculate_zero_range_behavior 1 2 3 5
  have h2 := calculate_zero_range_behavior 150000 2 3 5
  have hz1 : zeroRangeShares 1 = 0 :=
    h1.2.2.2.2.2 (by norm_num [mround, pyround2, pyroundInt, ratFloor])
  have hz2 : zeroRangeShares 150000 = 0 := by
    norm_num [zeroRangeShares, mround, pyround2, pyroundInt, ratFloor, CAPITAL]
  refine ⟨h1.1, ?_, (h1.2.2.2.2.1 hz1).1, (h1.2.2.2.2.1 hz1).2.1,
    (h2.2.2.2.2.1 hz2).1, (h2.2.2.2.2.1 hz2).2.2⟩
  rw [h1.2.1]
  norm_num [mround, pyround2, pyroundInt, ratFloor]

/-- Counterexample for C5 as stated: at opening price 100 on a zero-range day
the share count is 741, not 0 (the guarded division never raises, but the
outputs are not degraded to zero), and at opening price 100.02 the buy entry
is 100, not the opening price. -/
theorem calculate_zero_range_claim_cex :
    (calculate_and_save 100 50 50).map LevelSet.Shares_count = some 741
    ∧ (calculate_and_save 100 50 50).map LevelSet.Shares_count ≠ some 0
    ∧ (calculate_and_save (10002 / 100) 50 50).map LevelSet.Buy_Entry = some 100
    ∧ (calculate_and_save (10002 / 100) 50 50).map LevelSet.Buy_Entry
        ≠ some (10002 / 100) := by
  rw [calculate_and_save_eq, calculate_and_save_eq]
  simp only [Option.map_some']
  norm_num [calcRecord, CAPITAL, mround, pyround2, pyroundInt, ratFloor, pyint]

/-- C6 (corrected): partitioning 950 symbols at target 100 uses batch size
`max(1, 950 // 100) = 9` and yields `ceil(950 / 9) = 106` batches, each of
size 9 except the last, which has size 5 (the remainder of 950 by 9), not 4
as claimed. -/
theorem partition_950_sizes (l : List String) (h : l.length = 950) :
    (get_stock_symbols l).length = 106
    ∧ (∀ c ∈ (get_stock_symbols l).dropLast, c.length = 9)
    ∧ (get_stock_symbols l).getLast?.map List.length = some 5 := by
  have hbs : max 1 (l.length / BATCH_COUNT_NUM) = 9 := by rw [h]; rfl
  have hgs : get_stock_symbols l = sliceChunks 9 l := by
    simp only [get_stock_symbols, hbs]
  have hlen : (sliceChunks 9 l).length = 106 := by
    rw [sliceChunks_length 9 (by omega) l, h]
  have hdrop : ∀ c ∈ (sliceChunks 9 l).dropLast, c.length = 9 :=
    sliceChunks_dropLast_length 9 (by omega) l
  refine ⟨by rw [hgs]; exact hlen, by rw [hgs]; exact hdrop, ?_⟩
  rw [hgs]
  have hne : sliceChunks 9 l ≠ [] := by
    intro hnil
    rw [hnil] at hlen
    simp at hlen
  have hsplit : (sliceChunks 9 l).dropLast ++ [(sliceChunks 9 l).getLast hne]
      = sliceChunks 9 l := List.dropLast_append_getLast hne
  have hsum : ((sliceChunks 9 l).map List.length).sum = 950 := by
    rw [← List.length_flatten, sliceChunks_join 9 (by omega) l, h]
  have hdll : (sliceChunks 9 l).dropLast.length = 105 := by
    rw [List.length_dropLast, hlen]
  have hrepl : (sliceChunks 9 l).dropLast.map List.length = List.replicate 105 9 := by
    apply List.eq_replicate_iff.mpr
    constructor
    · rw [List.length_map, hdll]
    · intro b hb
      rcases List.mem_map.mp hb with ⟨c, hc, rfl⟩
      exact hdrop c hc
  have hlast : ((sliceChunks 9 l).getLast hne).length = 5 := by
    have hkey := hsum
    rw [← hsplit, List.map_append, List.sum_append, hrepl, List.sum_replicate]
      at hkey
    simp only [List.map_cons, List.map_nil, List.sum_cons, List.sum_nil,
      smul_eq_mul] at hkey
    omega
  rw [List.getLast?_eq_getLast _ hne, Option.map_some', hlast]

/-- Witness for C6 on an explicit 950-symbol list. -/
theorem partition_950_sizes_witness :
    (List.replicate 950 "s").length = 950
    ∧ (get_stock_symbols (List.replicate 950 "s")).length = 106
    ∧ (get_stock_symbols (List.replicate 950 "s")).getLast?.map List.length
        = some 5 :=
  ⟨List.length_replicate _ _, (partition_950_sizes _ (List.length_replicate _ _)).1,
    (partition_950_sizes _ (List.length_replicate _ _)).2.2⟩

set_option maxRecDepth 10000 in
/-- Counterexample for C6 as stated: on a concrete 950-symbol list the last
batch has size 5, not 4. -/
theorem partition_950_last_batch_cex :
    (get_stock_symbols (List.replicate 950 "s")).getLast?.map List.length = some 5
    ∧ (get_stock_symbols (List.replicate 950 "s")).getLast?.map List.length
        ≠ some 4 := by
  decide

set_option maxRecDepth 10000 in
/-- C10 (a code bug): for 950 symbols, `/get_all_stock_codes` computes
`batch_size = ceil(950 / 100) = 10` and reports `batch_count =
ceil(950 / 10) = 95`, while `get_stock_symbols` (batch size
`max(1, 950 // 100) = 9`) produces 106 batches, which is the largest
`batch_num` that `/get_stocks_data` accepts.  The advertised count and the
accepted range disagree: batches 96 to 106 are reachable but never
advertised. -/
theorem batch_count_mismatch_bug :
    reported_batch_size 950 = 10
    ∧ reported_batch_count 950 = 95
    ∧ (get_stock_symbols (List.replicate 950 "s")).length = 106
    ∧ reported_batch_count 950 ≠ (get_stock_symbols (List.replicate 950 "s")).length := by
  decide
